import Mathlib

/-!
Verification of the yeelightble specification against its code.

Only the CLI dispatcher (`yeelightble/cli.py`) is present in the repository
snapshot; the Packet Codec, Protocol Engine and Session Multiplexer sources
are not available, so those components are modelled faithfully from the
specification text (each such definition is marked `Modelled from the spec:`).
The CLI claims are embedded directly from `cli.py`.
-/

namespace Yeelightble

/-- Modelled from the spec: the `Command` tagged variants of the data model
(section 3).  The Packet Codec source is not under src/; only the CLI
dispatcher is.  Numeric fields are integers as received from the front end;
scene names are modelled as raw byte lists. -/
inductive Command
  | getState
  | setPower (isOn : Bool)
  | setBrightness (b : Int)
  | setColor (r g bl br : Int)
  | setTemperature (t br : Int)
  | getName
  | getVersionInfo
  | getSerialNumber
  | getTime
  | setTime (ts : Int)
  | getScene (slot : Int)
  | setScene (slot : Int) (sceneName : List Nat)
  | getAlarm (slot : Int)
  | getNightMode
  | getFlow (slot : Int)
  | getSleep
deriving DecidableEq

/-- Modelled from the spec: the opcode/command-id embedded in each packet.
The real opcode table is in the unavailable codec source; distinct codes per
variant is the property the spec relies on for correlation. -/
def opcodeOf : Command → Nat
  | .getState => 1
  | .setPower _ => 2
  | .setBrightness _ => 3
  | .setColor _ _ _ _ => 4
  | .setTemperature _ _ => 5
  | .getName => 6
  | .getVersionInfo => 7
  | .getSerialNumber => 8
  | .getTime => 9
  | .setTime _ => 10
  | .getScene _ => 11
  | .setScene _ _ => 12
  | .getAlarm _ => 13
  | .getNightMode => 14
  | .getFlow _ => 15
  | .getSleep => 16

/-- A value that must fit in one unsigned byte. -/
def byteOk (v : Int) : Bool := decide (0 ≤ v) && decide (v ≤ 255)

/-- Modelled from the spec: the documented inclusive ranges of the numeric
fields (brightness 0-100, temperature 1700-6500, colors unsigned bytes,
timestamps 32-bit, slots one byte, names length-prefixed byte runs). -/
def validCommand : Command → Bool
  | .getState => true
  | .setPower _ => true
  | .setBrightness b => decide (0 ≤ b) && decide (b ≤ 100)
  | .setColor r g bl br => byteOk r && byteOk g && byteOk bl && decide (0 ≤ br) && decide (br ≤ 100)
  | .setTemperature t br => decide (1700 ≤ t) && decide (t ≤ 6500) && decide (0 ≤ br) && decide (br ≤ 100)
  | .getName => true
  | .getVersionInfo => true
  | .getSerialNumber => true
  | .getTime => true
  | .setTime ts => decide (0 ≤ ts) && decide (ts < 4294967296)
  | .getScene s => byteOk s
  | .setScene s n => byteOk s && decide (n.length ≤ 255) && n.all (fun x => decide (x < 256))
  | .getAlarm s => byteOk s
  | .getNightMode => true
  | .getFlow s => byteOk s
  | .getSleep => true

/-- Modelled from the spec: the payload of each command's packet, following
the documented field layouts (colors are three unsigned bytes plus
brightness, brightness a single byte, temperature a multi-byte value,
time an encoded 32-bit timestamp, strings length-prefixed byte runs). -/
def payloadOf : Command → List Nat
  | .getState => []
  | .setPower isOn => [if isOn then 1 else 0]
  | .setBrightness b => [b.toNat]
  | .setColor r g bl br => [r.toNat, g.toNat, bl.toNat, br.toNat]
  | .setTemperature t br => [t.toNat / 256, t.toNat % 256, br.toNat]
  | .getName => []
  | .getVersionInfo => []
  | .getSerialNumber => []
  | .getTime => []
  | .setTime ts =>
      [ts.toNat / 16777216 % 256, ts.toNat / 65536 % 256, ts.toNat / 256 % 256, ts.toNat % 256]
  | .getScene s => [s.toNat]
  | .setScene s n => s.toNat :: n.length :: n
  | .getAlarm s => [s.toNat]
  | .getNightMode => []
  | .getFlow s => [s.toNat]
  | .getSleep => []

/-- Modelled from the spec: the trailing checksum byte of a packet
(the exact scheme is an internal codec responsibility; a sum modulo 256
over opcode and payload models it). -/
def checksum (op : Nat) (body : List Nat) : Nat := (op + body.sum) % 256

/-- Modelled from the spec: the error kind raised by `encode` on an
out-of-range field. -/
inductive CodecError
  | validationError
deriving DecidableEq

/-- The complete wire packet for a command: opcode, payload, checksum. -/
def packetOf (c : Command) : List Nat :=
  opcodeOf c :: (payloadOf c ++ [checksum (opcodeOf c) (payloadOf c)])

/-- Modelled from the spec: `encode(Command) -> Packet`, pure, total over the
valid input range, failing with `ValidationError` when a field is out of its
documented range - never silently clamping. -/
def encode (c : Command) : Except CodecError (List Nat) :=
  if validCommand c then .ok (packetOf c) else .error .validationError

/-- Whether `encode` succeeded on a command. -/
def encodeSucceeds (c : Command) : Bool :=
  match encode c with
  | .ok _ => true
  | .error _ => false

/-- C1: encode succeeds exactly when every numeric field is inside its
documented inclusive range (`validCommand`) and fails with the
`ValidationError` kind otherwise; in particular `SetBrightness 101` and
`SetTemperature 7000 50` fail while the boundary values `SetBrightness 0`
and `SetBrightness 100` succeed, and an out-of-range value is never encoded
at all (so it is never silently clamped). -/
theorem C1_encode_validation :
    (∀ c : Command, encodeSucceeds c = validCommand c)
    ∧ (∀ (c : Command) (e : CodecError), encode c = .error e → e = .validationError)
    ∧ encode (.setBrightness 101) = .error .validationError
    ∧ encode (.setTemperature 7000 50) = .error .validationError
    ∧ encodeSucceeds (.setBrightness 0) = true
    ∧ encodeSucceeds (.setBrightness 100) = true := by
  refine ⟨?_, ?_, by rfl, by rfl, by decide, by decide⟩
  · intro c
    unfold encodeSucceeds encode
    by_cases h : validCommand c = true
    · simp [h]
    · simp [h]
  · intro c e h
    unfold encode at h
    by_cases hv : validCommand c = true
    · simp [hv] at h
    · simp [hv] at h
      cases e
      rfl

/-- C1 witness: the out-of-range `SetBrightness 101` concretely fails with
the validation error kind, matching its validity predicate. -/
theorem C1_encode_validation_witness :
    encodeSucceeds (.setBrightness 101) = validCommand (.setBrightness 101)
    ∧ CodecError.validationError = CodecError.validationError :=
  ⟨C1_encode_validation.1 (.setBrightness 101),
   C1_encode_validation.2.1 (.setBrightness 101) .validationError (by rfl)⟩

/-- Modelled from the spec: the outcome of `decode(bytes)` - a typed
response/state update (opcode plus decoded semantic fields) or an explicit
`Malformed` outcome carrying the raw bytes and a reason; decoding never
throws. -/
inductive DecodeResult
  | update (op : Nat) (fields : List Int)
  | malformed (raw : List Nat) (reason : String)

/-- Modelled from the spec: type-specific field decoding per opcode.  A
payload of the wrong shape yields `none` (and hence `Malformed`). -/
def parseFields (op : Nat) (body : List Nat) : Option (List Int) :=
  match op, body with
  | 1, [] => some []
  | 2, [p] => some [(p : Int)]
  | 3, [b] => some [(b : Int)]
  | 4, [r, g, bl, br] => some [(r : Int), (g : Int), (bl : Int), (br : Int)]
  | 5, [hi, lo, br] => some [(256 * (hi : Int) + (lo : Int)), (br : Int)]
  | 6, [] => some []
  | 7, [] => some []
  | 8, [] => some []
  | 9, [] => some []
  | 10, [b3, b2, b1, b0] =>
      some [(16777216 * (b3 : Int) + 65536 * (b2 : Int) + 256 * (b1 : Int) + (b0 : Int))]
  | 11, [s] => some [(s : Int)]
  | 12, s :: len :: nm =>
      if nm.length = len then some ((s : Int) :: nm.map (fun x => (x : Int))) else none
  | 13, [s] => some [(s : Int)]
  | 14, [] => some []
  | 15, [s] => some [(s : Int)]
  | 16, [] => some []
  | _, _ => none

/-- Modelled from the spec: `decode(bytes)`.  Checksum validation happens
before field decoding; a truncated buffer or a checksum mismatch yields
`Malformed`, never a best-effort partial decode, and the function is total
(it never raises). -/
def decode (buf : List Nat) : DecodeResult :=
  if buf.length < 2 then .malformed buf "truncated"
  else
    let op := buf.headD 0
    let body := buf.tail.dropLast
    let chk := buf.tail.getLastD 0
    if chk = checksum op body then
      match parseFields op body with
      | some fs => .update op fs
      | none => .malformed buf "bad payload"
    else .malformed buf "bad checksum"

/-- The semantic fields a command carries, in wire order, as the decoder is
expected to reconstruct them. -/
def fieldsOf : Command → List Int
  | .getState => []
  | .setPower isOn => [if isOn then 1 else 0]
  | .setBrightness b => [b]
  | .setColor r g bl br => [r, g, bl, br]
  | .setTemperature t br => [t, br]
  | .getName => []
  | .getVersionInfo => []
  | .getSerialNumber => []
  | .getTime => []
  | .setTime ts => [ts]
  | .getScene s => [s]
  | .setScene s n => (s : Int) :: n.map (fun x => (x : Int))
  | .getAlarm s => [s]
  | .getNightMode => []
  | .getFlow s => [s]
  | .getSleep => []

lemma dropLast_concat_eq (l : List Nat) (a : Nat) : (l ++ [a]).dropLast = l := by
  induction l with
  | nil => rfl
  | cons x xs ih =>
      cases xs with
      | nil => rfl
      | cons y ys => simpa using ih

lemma getLastD_concat_eq (l : List Nat) (a : Nat) : (l ++ [a]).getLastD 0 = a := by
  induction l with
  | nil => rfl
  | cons x xs ih =>
      cases xs with
      | nil => rfl
      | cons y ys => simpa using ih

/-- Decoding a well-formed packet whose payload parses yields the parsed
fields. -/
lemma decode_packet_some (op : Nat) (body : List Nat) (fs : List Int)
    (h : parseFields op body = some fs) :
    decode (op :: (body ++ [checksum op body])) = .update op fs := by
  unfold decode
  have hlen : ¬ (op :: (body ++ [checksum op body])).length < 2 := by
    simp [List.length_append]
  rw [if_neg hlen]
  simp only [List.headD_cons, List.tail_cons, dropLast_concat_eq, getLastD_concat_eq]
  rw [if_pos trivial, h]

/-- C2: for every Command with in-range fields, encoding succeeds and
decoding the produced packet (as if the device echoed it back) reconstructs
the original semantic fields; in particular the packet of `SetBrightness 42`
decodes back to brightness 42. -/
theorem C2_roundtrip (c : Command) (hv : validCommand c = true) :
    encode c = .ok (packetOf c)
    ∧ decode (packetOf c) = .update (opcodeOf c) (fieldsOf c) := by
  have hp : parseFields (opcodeOf c) (payloadOf c) = some (fieldsOf c) := by
    cases c with
    | getState => rfl
    | setPower isOn => cases isOn <;> rfl
    | setBrightness b =>
        simp only [validCommand, Bool.and_eq_true, decide_eq_true_eq] at hv
        show some [((b.toNat : Nat) : Int)] = some [b]
        rw [Int.toNat_of_nonneg hv.1]
    | setColor r g bl br =>
        simp only [validCommand, byteOk, Bool.and_eq_true, decide_eq_true_eq] at hv
        obtain ⟨⟨⟨⟨⟨hr, _⟩, hg, _⟩, hbl, _⟩, hbr⟩, _⟩ := hv
        show some [((r.toNat : Nat) : Int), ((g.toNat : Nat) : Int),
          ((bl.toNat : Nat) : Int), ((br.toNat : Nat) : Int)] = some [r, g, bl, br]
        rw [Int.toNat_of_nonneg hr, Int.toNat_of_nonneg hg,
          Int.toNat_of_nonneg hbl, Int.toNat_of_nonneg hbr]
    | setTemperature t br =>
        simp only [validCommand, Bool.and_eq_true, decide_eq_true_eq] at hv
        obtain ⟨⟨⟨ht, _⟩, hbr⟩, _⟩ := hv
        have ht0 : (0 : Int) ≤ t := by omega
        show some [256 * ((t.toNat / 256 : Nat) : Int) + ((t.toNat % 256 : Nat) : Int),
          ((br.toNat : Nat) : Int)] = some [t, br]
        have h1 : 256 * ((t.toNat / 256 : Nat) : Int) + ((t.toNat % 256 : Nat) : Int) = t := by
          have hnat : 256 * (t.toNat / 256) + t.toNat % 256 = t.toNat :=
            Nat.div_add_mod t.toNat 256
          calc 256 * ((t.toNat / 256 : Nat) : Int) + ((t.toNat % 256 : Nat) : Int)
              = ((256 * (t.toNat / 256) + t.toNat % 256 : Nat) : Int) := by push_cast; ring
            _ = ((t.toNat : Nat) : Int) := by rw [hnat]
            _ = t := Int.toNat_of_nonneg ht0
        rw [h1, Int.toNat_of_nonneg hbr]
    | getName => rfl
    | getVersionInfo => rfl
    | getSerialNumber => rfl
    | getTime => rfl
    | setTime ts =>
        simp only [validCommand, Bool.and_eq_true, decide_eq_true_eq] at hv
        obtain ⟨hts0, htsb⟩ := hv
        show some [16777216 * ((ts.toNat / 16777216 % 256 : Nat) : Int)
          + 65536 * ((ts.toNat / 65536 % 256 : Nat) : Int)
          + 256 * ((ts.toNat / 256 % 256 : Nat) : Int)
          + ((ts.toNat % 256 : Nat) : Int)] = some [ts]
        have hlt : ts.toNat < 4294967296 := by omega
        have hnat : 16777216 * (ts.toNat / 16777216 % 256) + 65536 * (ts.toNat / 65536 % 256)
            + 256 * (ts.toNat / 256 % 256) + ts.toNat % 256 = ts.toNat := by omega
        have h1 : 16777216 * ((ts.toNat / 16777216 % 256 : Nat) : Int)
            + 65536 * ((ts.toNat / 65536 % 256 : Nat) : Int)
            + 256 * ((ts.toNat / 256 % 256 : Nat) : Int)
            + ((ts.toNat % 256 : Nat) : Int) = ts := by
          calc 16777216 * ((ts.toNat / 16777216 % 256 : Nat) : Int)
              + 65536 * ((ts.toNat / 65536 % 256 : Nat) : Int)
              + 256 * ((ts.toNat / 256 % 256 : Nat) : Int)
              + ((ts.toNat % 256 : Nat) : Int)
              = ((16777216 * (ts.toNat / 16777216 % 256) + 65536 * (ts.toNat / 65536 % 256)
                + 256 * (ts.toNat / 256 % 256) + ts.toNat % 256 : Nat) : Int) := by
                push_cast; ring
            _ = ((ts.toNat : Nat) : Int) := by rw [hnat]
            _ = ts := Int.toNat_of_nonneg hts0
        rw [h1]
    | getScene s =>
        simp only [validCommand, byteOk, Bool.and_eq_true, decide_eq_true_eq] at hv
        show some [((s.toNat : Nat) : Int)] = some [s]
        rw [Int.toNat_of_nonneg hv.1]
    | setScene s n =>
        simp only [validCommand, byteOk, Bool.and_eq_true, decide_eq_true_eq] at hv
        obtain ⟨⟨⟨hs0, _⟩, _⟩, _⟩ := hv
        show (if n.length = n.length
          then some (((s.toNat : Nat) : Int) :: n.map (fun x => (x : Int))) else none)
          = some ((s : Int) :: n.map (fun x => (x : Int)))
        rw [if_pos rfl, Int.toNat_of_nonneg hs0]
    | getAlarm s =>
        simp only [validCommand, byteOk, Bool.and_eq_true, decide_eq_true_eq] at hv
        show some [((s.toNat : Nat) : Int)] = some [s]
        rw [Int.toNat_of_nonneg hv.1]
    | getNightMode => rfl
    | getFlow s =>
        simp only [validCommand, byteOk, Bool.and_eq_true, decide_eq_true_eq] at hv
        show some [((s.toNat : Nat) : Int)] = some [s]
        rw [Int.toNat_of_nonneg hv.1]
    | getSleep => rfl
  exact ⟨by simp [encode, hv], by rw [packetOf]; exact decode_packet_some _ _ _ hp⟩

/-- C2 witness: `SetBrightness 42` round-trips concretely. -/
theorem C2_roundtrip_witness :
    encode (.setBrightness 42) = .ok (packetOf (.setBrightness 42))
    ∧ decode (packetOf (.setBrightness 42)) = .update 3 [42] :=
  C2_roundtrip (.setBrightness 42) (by decide)

/-- Modelled from the spec: the decoded, typed view of the lamp's reported
status cached by the Protocol Engine.  Fields start unknown and are replaced
atomically by decoded notifications. -/
structure DeviceState where
  power : Option Int := none
  brightness : Option Int := none
  color : Option (Int × Int × Int × Int) := none
  temperature : Option (Int × Int) := none
  deviceTime : Option Int := none
  scene : Option (Int × List Int) := none
  alarm : Option Int := none
  flowSlot : Option Int := none
deriving DecidableEq

/-- Modelled from the spec: applying one decoded notification's fields to
the cached DeviceState, replacing the previous cached value for that field;
a notification carrying no recognised fields leaves the cache as is. -/
def applyUpdate (s : DeviceState) (op : Nat) (fs : List Int) : DeviceState :=
  match op, fs with
  | 2, [p] => { s with power := some p }
  | 3, [b] => { s with brightness := some b }
  | 4, [r, g, bl, br] => { s with color := some (r, g, bl, br) }
  | 5, [t, br] => { s with temperature := some (t, br) }
  | 10, [ts] => { s with deviceTime := some ts }
  | 11, [sl] => { s with scene := some (sl, []) }
  | 12, sl :: nm => { s with scene := some (sl, nm) }
  | 13, [sl] => { s with alarm := some sl }
  | 15, [sl] => { s with flowSlot := some sl }
  | _, _ => s

/-- Modelled from the spec: a PendingRequest correlating an outstanding
command (by opcode) to its expected notification, holding a deadline. -/
structure PendingRequest where
  reqId : Nat
  opcode : Nat
  deadline : Nat
deriving DecidableEq

/-- Modelled from the spec: the Protocol Engine's state - the queue of
outstanding PendingRequests in submission order, the cached DeviceState,
a fresh-request counter and the configured timeout. -/
structure Engine where
  pending : List PendingRequest
  cache : DeviceState
  nextId : Nat
  timeoutMs : Nat
deriving DecidableEq

/-- Modelled from the spec: the engine's state-machine states `Idle` and
`Awaiting`. -/
inductive EngineMode
  | idle
  | awaiting
deriving DecidableEq

/-- The engine is `Idle` exactly when no PendingRequest is outstanding. -/
def engineMode (e : Engine) : EngineMode :=
  if e.pending.isEmpty then .idle else .awaiting

/-- Modelled from the spec: the distinct error kinds of the error handling
design (section 7). -/
inductive ErrorKind
  | validation
  | transport
  | malformedNote
  | timeout
  | busy
  | connectionLost
deriving DecidableEq

/-- Modelled from the spec: `send(Command)` - encodes (failing with a
validation error on an out-of-range field), writes to the transport (a
write failure yields a transport error and registers nothing), and on
success registers a PendingRequest with deadline `now + timeout` at the
back of the queue, returning its request id. -/
def send (e : Engine) (c : Command) (now : Nat) (writeOk : Bool) :
    Except ErrorKind (Engine × Nat) :=
  match encode c with
  | .error _ => .error .validation
  | .ok _ =>
      if writeOk then
        .ok ({ e with
                pending := e.pending ++ [⟨e.nextId, opcodeOf c, now + e.timeoutMs⟩],
                nextId := e.nextId + 1 }, e.nextId)
      else .error .transport

/-- The observable outcome of one notification callback. -/
inductive NotifyOutcome
  | discarded (reason : String)
  | resolved (reqId : Nat)
  | unsolicited
deriving DecidableEq

/-- The first outstanding request (in submission order) whose opcode matches
the notification, together with the queue it leaves behind. -/
def matchPending : List PendingRequest → Nat → Option (PendingRequest × List PendingRequest)
  | [], _ => none
  | r :: rs, op =>
      if r.opcode = op then some (r, rs)
      else
        match matchPending rs op with
        | some (q, rest) => some (q, r :: rest)
        | none => none

/-- Modelled from the spec: `onNotification(bytes)` - decodes via the Packet
Codec; a `Malformed` result is logged and discarded without touching the
engine; a decoded packet updates the cached DeviceState and resolves the
first matching PendingRequest in submission order, or counts as an
unsolicited refresh when nothing matches. -/
def onNotification (e : Engine) (buf : List Nat) : Engine × NotifyOutcome :=
  match decode buf with
  | .malformed _ reason => (e, .discarded reason)
  | .update op fs =>
      match matchPending e.pending op with
      | some (r, rest) =>
          ({ e with cache := applyUpdate e.cache op fs, pending := rest }, .resolved r.reqId)
      | none =>
          ({ e with cache := applyUpdate e.cache op fs }, .unsolicited)

/-- Modelled from the spec: deadline-driven cleanup at time `now` - every
PendingRequest whose deadline has arrived is discarded and reported timed
out; the rest stay queued. -/
def expireAt (e : Engine) (now : Nat) : Engine × List Nat :=
  ({ e with pending := e.pending.filter (fun r => decide (now < r.deadline)) },
   (e.pending.filter (fun r => decide (r.deadline ≤ now))).map (fun r => r.reqId))

/-- Modelled from the spec: `waitFor(PendingRequest, timeout)` observed at
time `now` - once the deadline has arrived the caller gets the distinct
`Timeout` error kind; before that the wait is still suspended (`none`). -/
def waitForAt (e : Engine) (i : Nat) (now : Nat) : Option ErrorKind :=
  if (expireAt e now).2.contains i then some .timeout else none

/-- Whether a `send` outcome was accepted (a PendingRequest was registered). -/
def sendAccepted (r : Except ErrorKind (Engine × Nat)) : Bool :=
  match r with
  | .ok _ => true
  | .error _ => false

lemma send_eq_of_valid (e : Engine) (c : Command) (t : Nat) (hv : validCommand c = true) :
    send e c t true =
      .ok ({ e with
             pending := e.pending ++ [⟨e.nextId, opcodeOf c, t + e.timeoutMs⟩],
             nextId := e.nextId + 1 }, e.nextId) := by
  unfold send
  rw [show encode c = .ok (packetOf c) from by simp [encode, hv]]
  rfl

lemma send_eq_of_invalid (e : Engine) (c : Command) (t : Nat) (w : Bool)
    (hv : validCommand c = false) : send e c t w = .error .validation := by
  unfold send
  rw [show encode c = .error .validationError from by simp [encode, hv]]

lemma send_ok_elim (e : Engine) (c : Command) (t : Nat) (e1 : Engine) (i : Nat)
    (h : send e c t true = .ok (e1, i)) :
    validCommand c = true
    ∧ e1 = { e with
             pending := e.pending ++ [⟨e.nextId, opcodeOf c, t + e.timeoutMs⟩],
             nextId := e.nextId + 1 }
    ∧ i = e.nextId := by
  by_cases hv : validCommand c = true
  · rw [send_eq_of_valid e c t hv] at h
    injection h with h
    injection h with h1 h2
    exact ⟨hv, h1.symm, h2.symm⟩
  · rw [send_eq_of_invalid e c t true (by simpa using hv)] at h
    exact absurd h (by simp)

/-- C3: decode maps every truncated buffer and every checksum-broken buffer
to an explicit `Malformed` outcome carrying the raw bytes and a reason
(being a total function it never raises), and feeding any buffer that
decodes to `Malformed` through the engine's notification handler leaves the
engine - its cached DeviceState included - unchanged; checksum validation
happens before field decoding, so a mismatch gives no partial decode. -/
theorem C3_malformed_tolerance :
    (∀ buf : List Nat, buf.length < 2 → decode buf = .malformed buf "truncated")
    ∧ (∀ buf : List Nat, ¬ buf.length < 2 →
        buf.tail.getLastD 0 ≠ checksum (buf.headD 0) buf.tail.dropLast →
        decode buf = .malformed buf "bad checksum")
    ∧ (∀ (e : Engine) (buf raw : List Nat) (reason : String),
        decode buf = .malformed raw reason → (onNotification e buf).1 = e) := by
  refine ⟨?_, ?_, ?_⟩
  · intro buf h
    unfold decode
    rw [if_pos h]
  · intro buf hlen hchk
    unfold decode
    rw [if_neg hlen]
    exact if_neg hchk
  · intro e buf raw reason h
    unfold onNotification
    rw [h]

/-- C3 witness: the empty buffer is truncated, `[1, 99]` has a broken
checksum, and feeding the latter to the engine changes nothing. -/
theorem C3_malformed_witness :
    decode [] = .malformed [] "truncated"
    ∧ decode [1, 99] = .malformed [1, 99] "bad checksum"
    ∧ (onNotification ⟨[], {}, 0, 5⟩ [1, 99]).1 = ⟨[], {}, 0, 5⟩ :=
  ⟨C3_malformed_tolerance.1 [] (by decide),
   C3_malformed_tolerance.2.1 [1, 99] (by decide) (by decide),
   C3_malformed_tolerance.2.2 ⟨[], {}, 0, 5⟩ [1, 99] [1, 99] "bad checksum"
     (C3_malformed_tolerance.2.1 [1, 99] (by decide) (by decide))⟩

lemma expire_single (e1 : Engine) (i op d : Nat) (hp : e1.pending = [⟨i, op, d⟩]) :
    (∀ now, now < d → expireAt e1 now = (e1, []) ∧ waitForAt e1 i now = none)
    ∧ expireAt e1 d = ({ e1 with pending := [] }, [i])
    ∧ waitForAt e1 i d = some .timeout := by
  have hbefore : ∀ now, now < d → expireAt e1 now = (e1, []) := by
    intro now hn
    have h1 : e1.pending.filter (fun r => decide (now < r.deadline)) = e1.pending := by
      rw [hp]
      simp [hn]
    have h2 : e1.pending.filter (fun r => decide (r.deadline ≤ now)) = [] := by
      rw [hp]
      simp
      omega
    unfold expireAt
    rw [h1, h2]
    rfl
  have hat : expireAt e1 d = ({ e1 with pending := [] }, [i]) := by
    have h1 : e1.pending.filter (fun r => decide (d < r.deadline)) = [] := by
      rw [hp]
      simp
    have h2 : e1.pending.filter (fun r => decide (r.deadline ≤ d)) = [⟨i, op, d⟩] := by
      rw [hp]
      simp
    unfold expireAt
    rw [h1, h2]
    rfl
  refine ⟨fun now hn => ⟨hbefore now hn, ?_⟩, hat, ?_⟩
  · unfold waitForAt
    rw [hbefore now hn]
    rfl
  · unfold waitForAt
    rw [hat]
    simp [List.contains]

/-- C4: after a `send` from the idle engine with no notification ever
delivered, the wait is still suspended strictly before the configured
deadline and resolves to the distinct `Timeout` error kind exactly at
`sendTime + timeout`; the PendingRequest is discarded there, the engine is
back in `Idle`, a new `send` is accepted immediately afterwards, and
`Timeout` differs from the transport and validation error kinds. -/
theorem C4_timeout (e : Engine) (c : Command) (t : Nat) (e1 : Engine) (i : Nat)
    (hidle : e.pending = []) (hsend : send e c t true = .ok (e1, i)) :
    (∀ now, now < t + e.timeoutMs → expireAt e1 now = (e1, []) ∧ waitForAt e1 i now = none)
    ∧ expireAt e1 (t + e.timeoutMs) = ({ e1 with pending := [] }, [i])
    ∧ waitForAt e1 i (t + e.timeoutMs) = some .timeout
    ∧ engineMode { e1 with pending := [] } = .idle
    ∧ sendAccepted (send { e1 with pending := [] } c (t + e.timeoutMs) true) = true
    ∧ ErrorKind.timeout ≠ ErrorKind.transport
    ∧ ErrorKind.timeout ≠ ErrorKind.validation := by
  obtain ⟨hv, he1, hi⟩ := send_ok_elim e c t e1 i hsend
  have hp : e1.pending = [⟨i, opcodeOf c, t + e.timeoutMs⟩] := by
    rw [he1, hi, hidle]
    rfl
  obtain ⟨hb, ha, hw⟩ := expire_single e1 i (opcodeOf c) (t + e.timeoutMs) hp
  refine ⟨hb, ha, hw, rfl, ?_, by decide, by decide⟩
  rw [send_eq_of_valid _ c _ hv]
  rfl

/-- C4 witness: the concrete idle engine with timeout 5, sent `GetState` at
time 0: still waiting at time 4, timed out and idle again at time 5, and a
fresh send is accepted. -/
theorem C4_timeout_witness :
    (expireAt ⟨[⟨0, 1, 5⟩], {}, 1, 5⟩ 4 = (⟨[⟨0, 1, 5⟩], {}, 1, 5⟩, [])
      ∧ waitForAt ⟨[⟨0, 1, 5⟩], {}, 1, 5⟩ 0 4 = none)
    ∧ expireAt ⟨[⟨0, 1, 5⟩], {}, 1, 5⟩ 5 = (⟨[], {}, 1, 5⟩, [0])
    ∧ waitForAt ⟨[⟨0, 1, 5⟩], {}, 1, 5⟩ 0 5 = some .timeout
    ∧ sendAccepted (send ⟨[], {}, 1, 5⟩ .getState 5 true) = true := by
  have h := C4_timeout ⟨[], {}, 0, 5⟩ .getState 0 ⟨[⟨0, 1, 5⟩], {}, 1, 5⟩ 0 rfl rfl
  exact ⟨h.1 4 (by decide), h.2.1, h.2.2.1, h.2.2.2.2.1⟩

lemma onNotification_resolves (e : Engine) (buf : List Nat) (op : Nat) (fs : List Int)
    (r : PendingRequest) (rest : List PendingRequest)
    (hdec : decode buf = .update op fs)
    (hm : matchPending e.pending op = some (r, rest)) :
    onNotification e buf
      = ({ e with cache := applyUpdate e.cache op fs, pending := rest }, .resolved r.reqId) := by
  unfold onNotification
  simp only [hdec]
  rw [hm]

/-- C5: two sends queued on one engine whose reply notifications carry
matching opcodes resolve in submission order even when the transport
delivers the notifications out of order (the second request's reply first):
the first delivered notification resolves the first submitted request. -/
theorem C5_submission_order (e : Engine) (c1 c2 : Command) (t1 t2 : Nat)
    (e1 e2 : Engine) (i1 i2 : Nat) (b1 b2 : List Nat) (f1 f2 : List Int)
    (hidle : e.pending = [])
    (hop : opcodeOf c2 = opcodeOf c1)
    (hs1 : send e c1 t1 true = .ok (e1, i1))
    (hs2 : send e1 c2 t2 true = .ok (e2, i2))
    (hd2 : decode b2 = .update (opcodeOf c1) f2)
    (hd1 : decode b1 = .update (opcodeOf c1) f1) :
    (onNotification e2 b2).2 = .resolved i1
    ∧ (onNotification (onNotification e2 b2).1 b1).2 = .resolved i2
    ∧ i1 ≠ i2 := by
  obtain ⟨hv1, he1, hi1⟩ := send_ok_elim e c1 t1 e1 i1 hs1
  obtain ⟨hv2, he2, hi2⟩ := send_ok_elim e1 c2 t2 e2 i2 hs2
  have hp2 : e2.pending = [⟨i1, opcodeOf c1, t1 + e.timeoutMs⟩,
      ⟨i2, opcodeOf c2, t2 + e1.timeoutMs⟩] := by
    rw [he2, hi2, he1, hi1, hidle]
    rfl
  have hne : i1 ≠ i2 := by
    rw [hi1, hi2, he1]
    show e.nextId ≠ e.nextId + 1
    omega
  have hm1 : matchPending e2.pending (opcodeOf c1)
      = some (⟨i1, opcodeOf c1, t1 + e.timeoutMs⟩, [⟨i2, opcodeOf c2, t2 + e1.timeoutMs⟩]) := by
    rw [hp2]
    unfold matchPending
    rw [if_pos rfl]
  have hstep1 := onNotification_resolves e2 b2 (opcodeOf c1) f2
    ⟨i1, opcodeOf c1, t1 + e.timeoutMs⟩ [⟨i2, opcodeOf c2, t2 + e1.timeoutMs⟩] hd2 hm1
  have hm2 : matchPending [(⟨i2, opcodeOf c2, t2 + e1.timeoutMs⟩ : PendingRequest)]
      (opcodeOf c1) = some (⟨i2, opcodeOf c2, t2 + e1.timeoutMs⟩, []) := by
    unfold matchPending
    rw [if_pos hop]
  have hstep2 := onNotification_resolves
    { e2 with
      cache := applyUpdate e2.cache (opcodeOf c1) f2,
      pending := [⟨i2, opcodeOf c2, t2 + e1.timeoutMs⟩] }
    b1 (opcodeOf c1) f1 ⟨i2, opcodeOf c2, t2 + e1.timeoutMs⟩ [] hd1 hm2
  refine ⟨?_, ?_, hne⟩
  · rw [hstep1]
  · simp only [hstep1]
    rw [hstep2]

/-- C5 witness: two `GetState` sends; the device's two replies (both opcode
1) arrive with the one meant for the second request first, yet request 0
resolves first and request 1 second. -/
theorem C5_submission_order_witness :
    (onNotification ⟨[⟨0, 1, 5⟩, ⟨1, 1, 5⟩], {}, 2, 5⟩ [1, 1]).2 = .resolved 0
    ∧ (onNotification (onNotification ⟨[⟨0, 1, 5⟩, ⟨1, 1, 5⟩], {}, 2, 5⟩ [1, 1]).1 [1, 1]).2
        = .resolved 1
    ∧ (0 : Nat) ≠ 1 :=
  C5_submission_order ⟨[], {}, 0, 5⟩ .getState .getState 0 0
    ⟨[⟨0, 1, 5⟩], {}, 1, 5⟩ ⟨[⟨0, 1, 5⟩, ⟨1, 1, 5⟩], {}, 2, 5⟩ 0 1 [1, 1] [1, 1] [] []
    rfl rfl rfl rfl rfl rfl

/-- C6: a notification arriving while no PendingRequest is outstanding and
whose bytes decode successfully updates the cached DeviceState with the
decoded fields and is treated as an unsolicited refresh - not as an error
(the handler has no error outcome for it). -/
theorem C6_unsolicited (e : Engine) (buf : List Nat) (op : Nat) (fs : List Int)
    (hidle : e.pending = []) (hdec : decode buf = .update op fs) :
    onNotification e buf = ({ e with cache := applyUpdate e.cache op fs }, .unsolicited) := by
  unfold onNotification
  rw [hdec, hidle]
  rfl

/-- C6 witness: the echoed `SetBrightness 42` packet arriving at an idle
engine caches brightness 42 and is an unsolicited refresh. -/
theorem C6_unsolicited_witness :
    onNotification ⟨[], {}, 0, 5⟩ [3, 42, 45]
      = (⟨[], { brightness := some 42 }, 0, 5⟩, .unsolicited) :=
  C6_unsolicited ⟨[], {}, 0, 5⟩ [3, 42, 45] 3 [42] rfl rfl

/-- Modelled from the spec: the Session Multiplexer - a pool of Protocol
Engine instances keyed by device MAC address, plus a fresh-instance counter.
Each pool entry stands for the one live Transport connection of that
address. -/
structure Multiplexer where
  pool : List (String × Nat)
  nextEngine : Nat
deriving DecidableEq

/-- The multiplexer the daemon starts with: an empty pool. -/
def Multiplexer.init : Multiplexer := ⟨[], 0⟩

/-- The engine instance currently pooled for a MAC address, if any. -/
def findEngine : List (String × Nat) → String → Option Nat
  | [], _ => none
  | (a, eid) :: rest, mac => if a = mac then some eid else findEngine rest mac

/-- Modelled from the spec: `acquire(macAddress)` - returns the existing
engine for that address if pooled, otherwise creates a fresh engine
instance, connects it and pools it. -/
def acquire (m : Multiplexer) (mac : String) : Multiplexer × Nat :=
  match findEngine m.pool mac with
  | some eid => (m, eid)
  | none => (⟨(mac, m.nextEngine) :: m.pool, m.nextEngine + 1⟩, m.nextEngine)

/-- Modelled from the spec: on a Transport-reported disconnection the
multiplexer removes the address's engine from the pool, never silently
reusing a dead engine. -/
def connectionLost (m : Multiplexer) (mac : String) : Multiplexer :=
  ⟨m.pool.filter (fun p => decide (p.1 ≠ mac)), m.nextEngine⟩

/-- The multiplexer states reachable from the daemon's initial state by
acquisitions and connection losses. -/
inductive Reachable : Multiplexer → Prop
  | init : Reachable .init
  | acq (m : Multiplexer) (mac : String) : Reachable m → Reachable (acquire m mac).1
  | lost (m : Multiplexer) (mac : String) : Reachable m → Reachable (connectionLost m mac)

lemma findEngine_eq_none_iff (l : List (String × Nat)) (mac : String) :
    findEngine l mac = none ↔ ∀ p ∈ l, p.1 ≠ mac := by
  induction l with
  | nil => simp [findEngine]
  | cons p rest ih =>
      obtain ⟨a, eid⟩ := p
      by_cases h : a = mac
      · simp [findEngine, h]
      · simp [findEngine, h, ih]

lemma findEngine_mem (l : List (String × Nat)) (mac : String) (eid : Nat)
    (h : findEngine l mac = some eid) : (mac, eid) ∈ l := by
  induction l with
  | nil => simp [findEngine] at h
  | cons p rest ih =>
      obtain ⟨a, e⟩ := p
      by_cases ha : a = mac
      · rw [findEngine, if_pos ha] at h
        injection h with h
        subst ha h
        exact List.mem_cons_self _ _
      · rw [findEngine, if_neg ha] at h
        exact List.mem_cons_of_mem _ (ih h)

/-- The pool invariant: no MAC address appears twice, and every pooled
engine id is below the fresh counter. -/
def PoolInv (m : Multiplexer) : Prop :=
  (m.pool.map Prod.fst).Nodup ∧ ∀ p ∈ m.pool, p.2 < m.nextEngine

lemma reachable_poolInv (m : Multiplexer) (h : Reachable m) : PoolInv m := by
  induction h with
  | init => exact ⟨List.nodup_nil, by simp [Multiplexer.init]⟩
  | acq m mac _ ih =>
      obtain ⟨hnd, hbound⟩ := ih
      unfold acquire
      cases hf : findEngine m.pool mac with
      | some eid => exact ⟨hnd, hbound⟩
      | none =>
          refine ⟨?_, ?_⟩
          · simp only [List.map_cons, List.nodup_cons]
            refine ⟨?_, hnd⟩
            intro hmem
            obtain ⟨p, hp, hfst⟩ := List.mem_map.mp hmem
            exact absurd hfst ((findEngine_eq_none_iff m.pool mac).mp hf p hp)
          · intro p hp
            rcases List.mem_cons.mp hp with h1 | h2
            · rw [h1]
              exact Nat.lt_succ_self _
            · exact Nat.lt_trans (hbound p h2) (Nat.lt_succ_self _)
  | lost m mac _ ih =>
      obtain ⟨hnd, hbound⟩ := ih
      refine ⟨?_, ?_⟩
      · exact List.Nodup.sublist (List.Sublist.map _ (List.filter_sublist _)) hnd
      · intro p hp
        exact hbound p (List.mem_of_mem_filter hp)

lemma findEngine_filter_ne (l : List (String × Nat)) (mac : String) :
    findEngine (l.filter (fun p => decide (p.1 ≠ mac))) mac = none := by
  rw [findEngine_eq_none_iff]
  intro p hp
  have := List.of_mem_filter hp
  simpa using this

lemma acquire_of_none (m : Multiplexer) (mac : String)
    (hf : findEngine m.pool mac = none) :
    acquire m mac = (⟨(mac, m.nextEngine) :: m.pool, m.nextEngine + 1⟩, m.nextEngine) := by
  unfold acquire
  rw [hf]

lemma acquire_bound (m : Multiplexer) (mac : String) (hinv : PoolInv m) :
    (acquire m mac).2 < (acquire m mac).1.nextEngine := by
  unfold acquire
  cases hf : findEngine m.pool mac with
  | some eid => exact hinv.2 (mac, eid) (findEngine_mem m.pool mac eid hf)
  | none => exact Nat.lt_succ_self _

/-- C7: while the connection stays up, a second `acquire` for the same MAC
address returns a handle to the same pooled engine instance (and leaves the
pool untouched); a `ConnectionLost` for that address removes its engine
from the pool, so the next `acquire` takes the create branch and returns a
fresh engine instance distinct from the old handle; and every reachable
multiplexer state pools at most one engine - hence at most one live
Transport connection - per MAC address. -/
theorem C7_multiplexer (m : Multiplexer) (mac : String) (h : Reachable m) :
    acquire (acquire m mac).1 mac = ((acquire m mac).1, (acquire m mac).2)
    ∧ findEngine (connectionLost (acquire m mac).1 mac).pool mac = none
    ∧ (acquire (connectionLost (acquire m mac).1 mac) mac).2
        = (connectionLost (acquire m mac).1 mac).nextEngine
    ∧ (acquire (connectionLost (acquire m mac).1 mac) mac).2 ≠ (acquire m mac).2
    ∧ (m.pool.map Prod.fst).Nodup := by
  have hinv := reachable_poolInv m h
  have hsame : acquire (acquire m mac).1 mac = ((acquire m mac).1, (acquire m mac).2) := by
    unfold acquire
    cases hf : findEngine m.pool mac with
    | some eid => simp [hf]
    | none => simp [hf, findEngine]
  have hremoved : findEngine (connectionLost (acquire m mac).1 mac).pool mac = none :=
    findEngine_filter_ne _ mac
  have hfresh : (acquire (connectionLost (acquire m mac).1 mac) mac).2
      = (connectionLost (acquire m mac).1 mac).nextEngine := by
    rw [acquire_of_none _ mac hremoved]
  have hbound : (acquire m mac).2 < (acquire m mac).1.nextEngine := acquire_bound m mac hinv
  have hnextkeep : (connectionLost (acquire m mac).1 mac).nextEngine
      = (acquire m mac).1.nextEngine := rfl
  refine ⟨hsame, hremoved, hfresh, ?_, hinv.1⟩
  rw [hfresh, hnextkeep]
  omega

/-- C7 witness: from the daemon's initial state with the example address,
the double acquire, removal on connection loss, fresh re-acquire and key
uniqueness all hold concretely. -/
theorem C7_multiplexer_witness :
    acquire (acquire .init "AA:BB:CC:DD:EE:FF").1 "AA:BB:CC:DD:EE:FF"
        = ((acquire .init "AA:BB:CC:DD:EE:FF").1, (acquire .init "AA:BB:CC:DD:EE:FF").2)
    ∧ findEngine (connectionLost (acquire .init "AA:BB:CC:DD:EE:FF").1
        "AA:BB:CC:DD:EE:FF").pool "AA:BB:CC:DD:EE:FF" = none
    ∧ (acquire (connectionLost (acquire .init "AA:BB:CC:DD:EE:FF").1
        "AA:BB:CC:DD:EE:FF") "AA:BB:CC:DD:EE:FF").2
        = (connectionLost (acquire .init "AA:BB:CC:DD:EE:FF").1 "AA:BB:CC:DD:EE:FF").nextEngine
    ∧ (acquire (connectionLost (acquire .init "AA:BB:CC:DD:EE:FF").1
        "AA:BB:CC:DD:EE:FF") "AA:BB:CC:DD:EE:FF").2 ≠ (acquire .init "AA:BB:CC:DD:EE:FF").2
    ∧ ((Multiplexer.init).pool.map Prod.fst).Nodup :=
  C7_multiplexer .init "AA:BB:CC:DD:EE:FF" Reachable.init

/-! The CLI dispatcher, embedded from `yeelightble/cli.py`. -/

/-- What the `cli` group callback does before any subcommand runs. -/
inductive CliOutcome
  | runDaemon
  | proceedNoLamp
  | errorExit (msg : String) (code : Nat)
  | lampCreated (mac : String)
deriving DecidableEq

/-- The one-line error logged by `cli` when the MAC address is missing
(cli.py line 32). -/
def macMissingMsg : String :=
  "mac address is missing, set YEELIGHTBLE_MAC environment variable or pass --mac option"

/-- The `cli` group callback (cli.py lines 19-35): scanning and the daemon
return before the MAC check; no subcommand invokes the daemon; any other
subcommand without a MAC logs one error line and exits with status 1; only
with a MAC is a `Lamp` constructed and stored as the context object. -/
def cliGroup (invokedSubcommand : Option String) (mac : Option String) : CliOutcome :=
  if invokedSubcommand = some "scan" ∨ invokedSubcommand = some "daemon" then
    .proceedNoLamp
  else
    match invokedSubcommand with
    | none => .runDaemon
    | some _ =>
        match mac with
        | none => .errorExit macMissingMsg 1
        | some m => .lampCreated m

/-- The registered device subcommand names of cli.py (click derives a
command's name from the function name, with underscores mapped to
dashes and the explicit names `info` and `time` kept). -/
def deviceSubcommands : List String :=
  ["state", "on", "off", "brightness", "color", "temperature", "name", "info",
   "time", "scene", "alarm", "night-mode", "flow", "sleep", "mode"]

/-- C8: invoking any subcommand other than `scan` and `daemon` with no MAC
address (neither `--mac` nor `YEELIGHTBLE_MAC`) makes the `cli` group emit
the single one-line missing-MAC error and exit with status 1 before any
`Lamp` is constructed; every listed device subcommand behaves this way,
while `scan` and `daemon` proceed without a MAC address. -/
theorem C8_cli_missing_mac (s : String) (h1 : s ≠ "scan") (h2 : s ≠ "daemon") :
    cliGroup (some s) none = .errorExit macMissingMsg 1
    ∧ (∀ m : String, cliGroup (some s) none ≠ .lampCreated m)
    ∧ deviceSubcommands.all
        (fun d => decide (cliGroup (some d) none = .errorExit macMissingMsg 1)) = true
    ∧ cliGroup (some "scan") none = .proceedNoLamp
    ∧ cliGroup (some "daemon") none = .proceedNoLamp
    ∧ macMissingMsg.toList.contains (Char.ofNat 10) = false := by
  have hmain : cliGroup (some s) none = .errorExit macMissingMsg 1 := by
    unfold cliGroup
    rw [if_neg]
    simp [h1, h2]
  refine ⟨hmain, ?_, by decide, by decide, by decide, by decide⟩
  intro m hcontra
  rw [hmain] at hcontra
  exact absurd hcontra (by simp)

/-- C8 witness: the `state` subcommand with no MAC exits with the one-line
error and never constructs a Lamp. -/
theorem C8_cli_missing_mac_witness :
    cliGroup (some "state") none = .errorExit macMissingMsg 1
    ∧ cliGroup (some "state") none ≠ .lampCreated "AA:BB:CC:DD:EE:FF"
    ∧ cliGroup (some "scan") none = .proceedNoLamp
    ∧ cliGroup (some "daemon") none = .proceedNoLamp
    ∧ macMissingMsg.toList.contains (Char.ofNat 10) = false :=
  ⟨(C8_cli_missing_mac "state" (by decide) (by decide)).1,
   (C8_cli_missing_mac "state" (by decide) (by decide)).2.1 "AA:BB:CC:DD:EE:FF",
   (C8_cli_missing_mac "state" (by decide) (by decide)).2.2.2.1,
   (C8_cli_missing_mac "state" (by decide) (by decide)).2.2.2.2.1,
   (C8_cli_missing_mac "state" (by decide) (by decide)).2.2.2.2.2⟩

/-- Python truthiness of a click integer argument: `None` and `0` are both
falsy. -/
def pyTruthy (v : Option Int) : Bool :=
  match v with
  | none => false
  | some n => decide (n ≠ 0)

/-- What a device-bound CLI handler ends up doing. -/
inductive HandlerAction
  | setBrightnessCall (b : Int)
  | printBrightness
  | setColorCall (r g bl : Option Int) (br : Option Int)
  | printColor
deriving DecidableEq

/-- The `brightness` handler (cli.py lines 86-95): `if brightness:` guards
the setter, else the cached value is printed. -/
def brightnessCommand (brightnessArg : Option Int) : HandlerAction :=
  if pyTruthy brightnessArg then .setBrightnessCall (brightnessArg.getD 0)
  else .printBrightness

/-- The `color` handler (cli.py lines 98-110): `if red or green or blue:`
guards the setter, else the cached color is printed. -/
def colorCommand (red green blue brightnessArg : Option Int) : HandlerAction :=
  if pyTruthy red || pyTruthy green || pyTruthy blue then
    .setColorCall red green blue brightnessArg
  else .printColor

/-- C9: the in-range boundary value 0 is treated like a missing argument by
the truthiness tests, so `brightness 0` and `color 0 0 0` never call the
setters (`set_brightness` / `set_color`) and fall through to the
read-and-print branch, behaving exactly like an invocation with no
argument. -/
theorem C9_zero_falls_through :
    brightnessCommand (some 0) = .printBrightness
    ∧ brightnessCommand (some 0) = brightnessCommand none
    ∧ (∀ b : Int, brightnessCommand (some 0) ≠ .setBrightnessCall b)
    ∧ (∀ br : Option Int, colorCommand (some 0) (some 0) (some 0) br = .printColor)
    ∧ (∀ r g bl br : Option Int,
        colorCommand (some 0) (some 0) (some 0) br ≠ .setColorCall r g bl br) := by
  refine ⟨rfl, rfl, ?_, fun br => rfl, ?_⟩
  · intro b hcontra
    exact absurd hcontra (by simp [brightnessCommand, pyTruthy])
  · intro r g bl br hcontra
    exact absurd hcontra (by simp [colorCommand, pyTruthy])

/-- C9 witness: `brightness 0` concretely prints instead of calling the
setter with 50 (or any value), and `color 0 0 0` prints. -/
theorem C9_zero_falls_through_witness :
    brightnessCommand (some 0) = .printBrightness
    ∧ brightnessCommand (some 0) ≠ .setBrightnessCall 50
    ∧ colorCommand (some 0) (some 0) (some 0) none = .printColor :=
  ⟨C9_zero_falls_through.1, C9_zero_falls_through.2.2.1 50,
   C9_zero_falls_through.2.2.2.1 none⟩

/-- The parameter list of the `sleep` handler function
(cli.py line 191: `def sleep(dev: Lamp):`). -/
def sleepHandlerParams : List String := ["dev"]

/-- How a Python call with keyword arguments resolves: a keyword argument
whose name is not among the function's parameters raises `TypeError` before
the body runs. -/
inductive PyCallResult
  | typeError (unexpectedKw : String)
  | executed (calls : List String)
deriving DecidableEq

/-- Invoking a Python function: the keyword arguments are checked against
the parameter list; the body's calls happen only when all bind. -/
def callHandler (params : List String) (kwargs : List (String × Int))
    (body : List String) : PyCallResult :=
  match kwargs.find? (fun kv => !params.contains kv.1) with
  | some kv => .typeError kv.1
  | none => .executed body

/-- The CLI `sleep` subcommand (cli.py lines 188-192): click parses the
declared `time` argument and passes it as the keyword argument `time` to
the handler, whose body would call `dev.get_sleep()`. -/
def invokeSleepCommand (t : Int) : PyCallResult :=
  callHandler sleepHandlerParams [("time", t)] ["dev.get_sleep()"]

/-- C10: every invocation of the `sleep` subcommand fails before reaching
the device - the handler accepts only `dev`, so click's `time` keyword
argument raises `TypeError` for every parsed value and the body's
`dev.get_sleep()` never executes. -/
theorem C10_sleep_type_error :
    (∀ t : Int, invokeSleepCommand t = .typeError "time")
    ∧ (∀ (t : Int) (calls : List String), invokeSleepCommand t ≠ .executed calls) := by
  have hmain : ∀ t : Int, invokeSleepCommand t = .typeError "time" := fun t => rfl
  refine ⟨hmain, ?_⟩
  intro t calls hcontra
  rw [hmain t] at hcontra
  exact absurd hcontra (by simp)

/-- C10 witness: the default `time` value 0 concretely raises `TypeError`
and the handler body never runs. -/
theorem C10_sleep_type_error_witness :
    invokeSleepCommand 0 = .typeError "time"
    ∧ invokeSleepCommand 0 ≠ .executed ["dev.get_sleep()"] :=
  ⟨C10_sleep_type_error.1 0, C10_sleep_type_error.2 0 ["dev.get_sleep()"]⟩

end Yeelightble
